import Mathlib

/-!
Verification development for the pack-format statistics utility
(`src/util/stat.cc` of lila-openingexplorer).

The program scans a sorted key-value store, classifies each record's
value into a pack-format tag, tallies occurrences per tag in a
six-element `long pack[6]` array, and reports per-tag counts plus two
closed-form size estimates (`estimate_a`, `estimate_b`) and their ratio.

Shallow embedding conventions:
* a value (`std::string`) is a `List Nat` of its unsigned bytes (each `< 256`);
* `char` is signed on the reference platform, so `value.at(0)` used as an
  array index is the signed reinterpretation of the first byte
  (`charOfByte`);
* the tally array `long pack[6]` is `Fin 6 → Int`; C `long` arithmetic is
  modelled exactly over `Int` (signed overflow is undefined behaviour in
  C++, and all quantities here stay far inside 64 bits for any feasible
  scan);
* operations with no defined C++ result — `value.at(0)` on an empty
  string (throws `std::out_of_range`) and an out-of-bounds write
  `pack[i]++` with `i` outside `[0,5]` (undefined behaviour) — are
  modelled as `none`.
-/

namespace PackStat

/-- Signed `char` reinterpretation of an unsigned byte: `value.at(0)`
yields a `char`, which on the reference platform is signed 8-bit, so
bytes `128..255` become negative when used as an array index. -/
def charOfByte (b : Nat) : Int :=
  if b % 256 < 128 then ((b % 256 : Nat) : Int) else ((b % 256 : Nat) : Int) - 256

/-- The index expression of the tally step in `main`
(src/util/stat.cc:48-54): `value.size() == 8` selects index `0`,
otherwise the index is `value.at(0)` read as a (signed) `char`.
`none` models the `std::out_of_range` throw of `.at(0)` on an empty
value. This is the program's whole classification logic: it is a
function of the value alone (the key is never inspected) and looks at
no byte beyond the first. -/
def classify (v : List Nat) : Option Int :=
  if v.length = 8 then some 0 else v.head?.map charOfByte

/-- The tally slot actually incremented by `pack[...]++`: the classified
index, provided it is in bounds for the six-element array `long pack[6]`
(src/util/stat.cc:46). `none` models an execution with no defined
result: either `.at(0)` throwing on an empty value, or the out-of-bounds
array write `pack[i]++` with `i` outside `[0,5]` (undefined behaviour —
the program has no error path here). -/
def tallyIdx (v : List Nat) : Option (Fin 6) :=
  (classify v).bind fun c =>
    if h : 0 ≤ c ∧ c < 6 then some ⟨c.toNat, by omega⟩ else none

/-- Increment one slot of the tally array. -/
def incr (pack : Fin 6 → Int) (i : Fin 6) : Fin 6 → Int :=
  Function.update pack i (pack i + 1)

/-- One iteration of the scan loop body (src/util/stat.cc:49-53):
classify the value and increment the corresponding tally slot. -/
def tallyStep (pack : Fin 6 → Int) (v : List Nat) : Option (Fin 6 → Int) :=
  (tallyIdx v).map (incr pack)

/-- The scan loop folded over a list of values (the keys returned by
`cur->get` are never used by the loop body). -/
def runTally (pack : Fin 6 → Int) : List (List Nat) → Option (Fin 6 → Int)
  | [] => some pack
  | v :: rest => (tallyStep pack v).bind fun p => runTally p rest

/-- `long pack[] = {0, 0, 0, 0, 0, 0}` (src/util/stat.cc:46). -/
def zeroPack : Fin 6 → Int := fun _ => 0

/-- `estimate_a` (src/util/stat.cc:6-15), transcribed term for term. -/
def estimate_a (pack : Fin 6 → Int) : Int :=
  4 + pack 0 * 8 +
  4 + 1 + pack 1 * 8 * 5 +
  4 + 1 + pack 2 * 8 * 5 + 3 * 11 * 1 +
  4 + 1 + pack 3 * 8 * 5 + 3 * 11 * 2 +
  4 + 1 + pack 4 * 8 * 5 + 3 * 11 * 4 +
  4 + 1 + pack 5 * 8 * 5 + 3 * 11 * 6

/-- `estimate_b` (src/util/stat.cc:17-26), transcribed term for term. -/
def estimate_b (pack : Fin 6 → Int) : Int :=
  4 + pack 0 * 9 +
  4 + 1 + pack 1 * 9 * 5 +
  4 + 1 + pack 2 * 9 * 5 + 4 * 2 * 3 * 8 * 1 +
  4 + 1 + pack 3 * 9 * 5 + 4 * 2 * 3 * 8 * 2 +
  4 + 1 + pack 4 * 9 * 5 + 4 * 2 * 3 * 8 * 4 +
  4 + 1 + pack 5 * 9 * 5 + 4 * 2 * 3 * 8 * 6

/-- The numeric report printed to standard output after the scan loop
(src/util/stat.cc:56-66). `tagLines` are the `"Pack format i: pack[i]
nodes"` lines produced by `for (int i = 0; i < 5; i++)`; the ratio is
the exact rational value of `estimate_b/estimate_a` (the program prints
its `double` approximation). -/
structure Report where
  tagLines : List (Nat × Int)
  uniquePositions : Int
  schemeA : Int
  schemeB : Int
  ratio : ℚ
deriving DecidableEq

/-- Build the report from a final tally, following src/util/stat.cc:56-66. -/
def report (pack : Fin 6 → Int) : Report where
  tagLines := (List.finRange 5).map fun i => ((i : Nat), pack (Fin.castLE (show 5 ≤ 6 by decide) i))
  uniquePositions := pack 0 + pack 1 + pack 2 + pack 3 + pack 4 + pack 5
  schemeA := estimate_a pack
  schemeB := estimate_b pack
  ratio := (estimate_b pack : ℚ) / (estimate_a pack : ℚ)

/-- Why a scan stream stops yielding records: normal exhaustion, or a
mid-scan I/O fault. -/
inductive ScanEnd
  | eof
  | fault
deriving DecidableEq

/-- A scan as observed through the cursor: the (key, value) records
successfully yielded, and why the stream then stopped. Kyoto Cabinet's
`Cursor::get` returns `false` both when no record remains and when an
I/O error occurs, so the `while (cur->get(...))` loop
(src/util/stat.cc:48) consumes exactly `records` and then exits,
whatever the `ending`. -/
structure ScanStream where
  records : List (List Nat × List Nat)
  ending : ScanEnd

/-- The values fed to the loop body; the keys are never inspected. -/
def scanValues (s : ScanStream) : List (List Nat) :=
  s.records.map Prod.snd

/-- End-to-end behaviour of `main` after a successful open
(src/util/stat.cc:41-68): fold the tally over the yielded records, then
unconditionally print the numeric report (exit status 0). `none` arises
only when a tally increment itself had no defined result (out-of-bounds
write); the `ending` of the stream is never consulted. -/
def mainOutput (s : ScanStream) : Option Report :=
  (runTally zeroPack (scanValues s)).map report

/-- Modelled from the spec wording of claim C2 (§4.4): for every tag the
per-record payload is `count(tag) × pointer_width × 5`, the header is 4
bytes plus one tag-marker byte for tags 1-5, and tags 2-5 add a branch
surcharge `branch_multiplier × unit_cost` with multipliers 1, 2, 4, 6.
Instantiated with `pw = 8, unit = 3*11` for scheme A and
`pw = 9, unit = 4*2*3*8` for scheme B. -/
def claimEstimate (pw unit : Int) (pack : Fin 6 → Int) : Int :=
  (4 + pack 0 * pw * 5) +
  (4 + 1 + pack 1 * pw * 5) +
  (4 + 1 + pack 2 * pw * 5 + 1 * unit) +
  (4 + 1 + pack 3 * pw * 5 + 2 * unit) +
  (4 + 1 + pack 4 * pw * 5 + 4 * unit) +
  (4 + 1 + pack 5 * pw * 5 + 6 * unit)

/-- The amended formula: identical to `claimEstimate` except that tag 0
carries a single pointer slot (`count × pointer_width × 1`), not five;
this is the only point where the claimed formula and the code differ. -/
def amendedEstimate (pw unit : Int) (pack : Fin 6 → Int) : Int :=
  (4 + pack 0 * pw * 1) +
  (4 + 1 + pack 1 * pw * 5) +
  (4 + 1 + pack 2 * pw * 5 + 1 * unit) +
  (4 + 1 + pack 3 * pw * 5 + 2 * unit) +
  (4 + 1 + pack 4 * pw * 5 + 4 * unit) +
  (4 + 1 + pack 5 * pw * 5 + 6 * unit)

/-- The tally with a single tag-0 record and nothing else. -/
def onePack0 : Fin 6 → Int := fun i => if i = 0 then 1 else 0

/-- Two single-slot increments commute. -/
theorem incr_comm (p : Fin 6 → Int) (i j : Fin 6) :
    incr (incr p i) j = incr (incr p j) i := by
  unfold incr
  rcases eq_or_ne i j with rfl | h
  · rfl
  · rw [Function.update_noteq h.symm, Function.update_noteq h]
    exact Function.update_comm h _ _ _

/-- The scan fold is invariant under permutation of the value stream:
whether a step succeeds depends only on the value, and successful steps
commute. -/
theorem runTally_perm {l₁ l₂ : List (List Nat)} (h : l₁.Perm l₂) :
    ∀ p : Fin 6 → Int, runTally p l₁ = runTally p l₂ := by
  induction h with
  | nil => intro p; rfl
  | cons x _ ih =>
      intro p
      simp only [runTally]
      cases tallyStep p x with
      | none => rfl
      | some q => simpa using ih q
  | swap x y l =>
      intro p
      simp only [runTally, tallyStep]
      rcases hx : tallyIdx x with _ | jx <;> rcases hy : tallyIdx y with _ | jy <;>
        simp [incr_comm]
  | trans _ _ ih₁ ih₂ => intro p; exact (ih₁ p).trans (ih₂ p)

/-- When every value's tally increment is in bounds, the scan fold
yields a defined final tally. -/
theorem runTally_isSome {l : List (List Nat)} (h : ∀ v ∈ l, (tallyIdx v).isSome) :
    ∀ p : Fin 6 → Int, (runTally p l).isSome := by
  induction l with
  | nil => intro p; rfl
  | cons x t ih =>
      intro p
      have hx := h x (List.mem_cons_self x t)
      simp only [runTally, tallyStep]
      rcases hx' : tallyIdx x with _ | j
      · rw [hx'] at hx; simp at hx
      · simpa using ih (fun v hv => h v (List.mem_cons_of_mem _ hv)) (incr p j)

/-- Claim C1, code evaluation at the failing input (a value of length 3
with first byte 7): the code computes index 7 — it accepts the byte
rather than failing with an `UnknownPackFormat` error — and the tally
increment `pack[7]++` is out of bounds for `long pack[6]` (undefined
behaviour, modelled `none`); no error value or abort path exists in the
program. -/
theorem spec_c1_eval : classify [7, 0, 0] = some 7 ∧ tallyIdx [7, 0, 0] = none := by
  decide

/-- Claim C3: every value of length exactly 8 classifies as tag 0 and
is tallied in slot 0, regardless of byte content. -/
theorem spec_c3 (v : List Nat) (h : v.length = 8) :
    classify v = some 0 ∧ tallyIdx v = some 0 := by
  have hc : classify v = some 0 := by simp [classify, h]
  refine ⟨hc, ?_⟩
  rw [tallyIdx, hc]
  rfl

/-- Claim C3, witness: a length-8 value whose first byte is 0x02 still
classifies as tag 0 (the length check takes precedence). -/
theorem spec_c3_witness :
    ([2, 0, 0, 0, 0, 0, 0, 0] : List Nat).length = 8 ∧
      (classify [2, 0, 0, 0, 0, 0, 0, 0] = some 0 ∧
        tallyIdx [2, 0, 0, 0, 0, 0, 0, 0] = some 0) :=
  ⟨by decide, spec_c3 [2, 0, 0, 0, 0, 0, 0, 0] (by decide)⟩

/-- Claim C4: for a value of length ≠ 8 whose first byte `b` lies in
[0,6], classification yields tag `b`; moreover classification depends
only on the value's length and first byte (no further byte is
inspected), and it is a function of the value alone — `classify` takes
no key. -/
theorem spec_c4 (v : List Nat) (b : Nat) (h : v.length ≠ 8)
    (hh : v.head? = some b) (hb : b ≤ 6) :
    classify v = some (b : Int) ∧
      ∀ w : List Nat, w.length = v.length → w.head? = v.head? →
        classify w = classify v := by
  have hchar : charOfByte b = (b : Int) := by
    unfold charOfByte
    rw [Nat.mod_eq_of_lt (by omega), if_pos (by omega)]
  constructor
  · simp [classify, h, hh, hchar]
  · intro w hw1 hw2
    simp [classify, hw1, hw2]

/-- Claim C4, witness: the value [4, 9, 9] classifies as tag 4, and any
value of the same length with the same first byte (e.g. [4, 1, 2])
classifies identically. -/
theorem spec_c4_witness :
    classify [4, 9, 9] = some 4 ∧ classify [4, 1, 2] = classify [4, 9, 9] :=
  ⟨(spec_c4 [4, 9, 9] 4 (by decide) (by decide) (by decide)).1,
    (spec_c4 [4, 9, 9] 4 (by decide) (by decide) (by decide)).2 [4, 1, 2]
      (by decide) (by decide)⟩

/-- Claim C5: the value [6, 0] is classifiable (index 6, inside the tag
range [0,6] the classifier computes) yet its tally increment is out of
bounds for `long pack[6]`; in general, for a value of length ≠ 8 with
first byte `b`, the increment is in bounds exactly when `b ≤ 5` — a
strictly narrower range than the accepted tags [0,6] (bytes ≥ 128 are
also out of bounds, since `char` is signed). -/
theorem spec_c5 :
    (classify [6, 0] = some 6 ∧ tallyIdx [6, 0] = none) ∧
      ∀ (v : List Nat) (b : Nat), v.length ≠ 8 → v.head? = some b → b < 256 →
        ((tallyIdx v).isSome ↔ b ≤ 5) := by
  refine ⟨⟨by decide, by decide⟩, ?_⟩
  intro v b h hh hb
  have hc : classify v = some (charOfByte b) := by simp [classify, h, hh]
  have key : (0 ≤ charOfByte b ∧ charOfByte b < 6) ↔ b ≤ 5 := by
    unfold charOfByte
    rw [Nat.mod_eq_of_lt hb]
    by_cases h128 : b < 128
    · rw [if_pos h128]; omega
    · rw [if_neg h128]; omega
  by_cases hcb : 0 ≤ charOfByte b ∧ charOfByte b < 6
  · have ht : tallyIdx v = some ⟨(charOfByte b).toNat, by omega⟩ := by
      rw [tallyIdx, hc]; exact dif_pos hcb
    simp [ht, key.mp hcb]
  · have ht : tallyIdx v = none := by
      rw [tallyIdx, hc]; exact dif_neg hcb
    simp [ht]
    have h5 : ¬ b ≤ 5 := fun hb5 => hcb (key.mpr hb5)
    omega

/-- Claim C5, witness: for the value [3, 0] the in-bounds equivalence
holds concretely, and its increment is in bounds since 3 ≤ 5. -/
theorem spec_c5_witness :
    (([3, 0] : List Nat).length ≠ 8 ∧ (3 : Nat) ≤ 5) ∧
      ((tallyIdx [3, 0]).isSome ↔ (3 : Nat) ≤ 5) :=
  ⟨⟨by decide, by decide⟩, spec_c5.2 [3, 0] 3 (by decide) (by decide) (by decide)⟩

/-- Claim C2, counterexample: at the non-negative tally with a single
tag-0 record, the code's `estimate_a` yields 466 while the claimed
formula (payload `count × pointer_width × 5` for every tag, including
tag 0) yields 498; likewise 2534 versus 2570 for scheme B. The claimed
formula therefore does not equal the code's. -/
theorem spec_c2_counterexample :
    (∀ i, 0 ≤ onePack0 i) ∧
      estimate_a onePack0 = 466 ∧ claimEstimate 8 (3 * 11) onePack0 = 498 ∧
      estimate_b onePack0 = 2534 ∧ claimEstimate 9 (4 * 2 * 3 * 8) onePack0 = 2570 ∧
      estimate_a onePack0 ≠ claimEstimate 8 (3 * 11) onePack0 ∧
      estimate_b onePack0 ≠ claimEstimate 9 (4 * 2 * 3 * 8) onePack0 := by
  refine ⟨by decide, by decide, by decide, by decide, by decide, by decide, by decide⟩

/-- Claim C2 as amended: for every tally of non-negative counts, the
code's estimates match the three-term decomposition with the tag-0
payload carrying a single pointer slot (`count × pointer_width × 1`)
instead of five; all other terms are as the claim states them
(`pw = 8, unit = 3·11` for scheme A; `pw = 9, unit = 4·2·3·8` for
scheme B). -/
theorem spec_c2_amended (pack : Fin 6 → Int) (_hnn : ∀ i, 0 ≤ pack i) :
    estimate_a pack = amendedEstimate 8 (3 * 11) pack ∧
      estimate_b pack = amendedEstimate 9 (4 * 2 * 3 * 8) pack := by
  unfold estimate_a estimate_b amendedEstimate
  constructor <;> ring

/-- Claim C2, witness: the amended decomposition holds at the
single-tag-0 tally. -/
theorem spec_c2_witness :
    estimate_a onePack0 = amendedEstimate 8 (3 * 11) onePack0 ∧
      estimate_b onePack0 = amendedEstimate 9 (4 * 2 * 3 * 8) onePack0 :=
  spec_c2_amended onePack0 (by decide)

/-- Claim C6, counterexample: for the all-zero tally the code's
estimates are not 29 and 29 with ratio 1; the branch-table surcharges
are unconditional constants, so they do not vanish at zero counts. -/
theorem spec_c6_counterexample :
    ¬ (estimate_a zeroPack = 29 ∧ estimate_b zeroPack = 29 ∧
        (report zeroPack).ratio = 1) := by
  intro h
  exact (by decide : ¬ estimate_a zeroPack = 29) h.1

/-- Claim C6 as amended: for the all-zero tally, `estimate_a` is 458
and `estimate_b` is 2525 (headers 29 plus constant branch surcharges
429 and 2496 respectively), and the exact B/A ratio is 2525/458 ≈ 5.51
(the program prints its `double` approximation), not 1.0. -/
theorem spec_c6_amended :
    estimate_a zeroPack = 458 ∧ estimate_b zeroPack = 2525 ∧
      (report zeroPack).ratio = 2525 / 458 := by
  refine ⟨by decide, by decide, ?_⟩
  norm_num [report, estimate_a, estimate_b, zeroPack]

/-- Claim C7, code evaluation: for every final tally, the report's
per-tag occurrence lines cover exactly tags 0 through 4 — the line for
tag 5 is missing (the print loop runs `i < 5`) — while the unique-
positions total does sum all six counts and the scheme A, scheme B and
ratio figures are present as claimed. -/
theorem spec_c7_eval (pack : Fin 6 → Int) :
    (report pack).tagLines.map Prod.fst = [0, 1, 2, 3, 4] ∧
      (5 : Nat) ∉ (report pack).tagLines.map Prod.fst ∧
      (report pack).uniquePositions =
        pack 0 + pack 1 + pack 2 + pack 3 + pack 4 + pack 5 ∧
      (report pack).schemeA = estimate_a pack ∧
      (report pack).schemeB = estimate_b pack ∧
      (report pack).ratio = (estimate_b pack : ℚ) / (estimate_a pack : ℚ) := by
  refine ⟨?_, ?_, rfl, rfl, rfl, rfl⟩
  · simp [report, List.finRange]
  · simp [report, List.finRange]

/-- Claim C8, counterexample: a scan stream that yields one record and
then ends in an I/O fault still produces the full numeric report (from
the partial tally of the records seen), contradicting the claim that no
partial numeric report is emitted on a fault. -/
theorem spec_c8_counterexample :
    mainOutput ⟨[([0], List.replicate 8 0)], ScanEnd.fault⟩ =
      some (report (incr zeroPack 0)) := rfl

/-- Claim C8 as amended: the program's output is independent of why the
record stream ended — `Cursor::get` returns `false` both on exhaustion
and on an I/O fault, so a fault ends the loop exactly like completion
and the numeric report of the tally accumulated so far is emitted
(exit status 0). -/
theorem spec_c8_amended (recs : List (List Nat × List Nat)) (e₁ e₂ : ScanEnd) :
    mainOutput ⟨recs, e₁⟩ = mainOutput ⟨recs, e₂⟩ := rfl

/-- Claim C9: increasing any single tally slot `i` by a positive amount
`d` while holding the other five counts fixed does not decrease
`estimate_a` and does not decrease `estimate_b`. -/
theorem spec_c9 (p q : Fin 6 → Int) (i : Fin 6) (d : Int) (hd : 0 < d)
    (hi : q i = p i + d) (hoth : ∀ j, j ≠ i → q j = p j) :
    estimate_a p ≤ estimate_a q ∧ estimate_b p ≤ estimate_b q := by
  have mono : ∀ k : Fin 6, p k ≤ q k := by
    intro k
    by_cases hk : k = i
    · subst hk; rw [hi]; linarith
    · rw [hoth k hk]
  constructor <;>
    · simp only [estimate_a, estimate_b]
      nlinarith [mono 0, mono 1, mono 2, mono 3, mono 4, mono 5]

/-- Claim C9, witness: adding one tag-0 record to the empty tally does
not decrease either estimate. -/
theorem spec_c9_witness :
    estimate_a zeroPack ≤ estimate_a onePack0 ∧
      estimate_b zeroPack ≤ estimate_b onePack0 :=
  spec_c9 zeroPack onePack0 0 1 (by decide) (by decide)
    (by decide)

/-- Claim C10: folding the tally over any permutation of a multiset of
values whose increments are all defined yields the same final per-tag
counts — the per-record updates commute, so record order does not
affect the final tally. -/
theorem spec_c10 (init : Fin 6 → Int) (l₁ l₂ : List (List Nat))
    (hperm : l₁.Perm l₂) (hok : ∀ v ∈ l₁, (tallyIdx v).isSome) :
    ∃ counts, runTally init l₁ = some counts ∧ runTally init l₂ = some counts := by
  rcases Option.isSome_iff_exists.mp (runTally_isSome hok init) with ⟨c, hc⟩
  exact ⟨c, hc, by rw [← runTally_perm hperm init]; exact hc⟩

/-- Claim C10, witness: the two-element streams [[0],[1,1]] and
[[1,1],[0]] are permutations of one another and yield the same defined
final tally. -/
theorem spec_c10_witness :
    ∃ counts, runTally zeroPack [[0], [1, 1]] = some counts ∧
      runTally zeroPack [[1, 1], [0]] = some counts :=
  spec_c10 zeroPack [[0], [1, 1]] [[1, 1], [0]] (by decide) (by decide)

end PackStat
